import Mathlib

/-!
Verification of the `TokenizerRust` FFI boundary layer (`src/ffi.rs`).

The layer exposes three C-ABI operations over a process-wide, write-once
tokenizer singleton:

  * `tokenizer_init(path)` — validate the path bytes as UTF-8, load a
    tokenizer from file through the external engine, publish it into a
    `OnceCell` (first writer wins), return `0` / `-1` / `-2`.
  * `tokenizer_encode(text, out_ids, max_len)` — validate the text bytes
    as UTF-8, run the engine's encode, cast each `u32` id to `i32`, copy
    `min(len, max_len)` ids into the host buffer, return the copied count
    as `i32` (or `-1` / `-2` / `-3`).
  * `tokenizer_decode(ids, len)` — cast each `i32` to `u32`, run the
    engine's decode, return a freshly allocated C string
    (`CString::new(text).unwrap().into_raw()`), or a null pointer.

The external tokenization engine is opaque: we model it as a structure of
functions.  C strings are modelled as their byte content (a `List Nat` of
bytes, the bytes before the terminating NUL).  Rust's `CStr::to_str`
UTF-8 validation is implemented in full.  The `CString::new(..).unwrap()`
on the decode success path panics when the decoded text contains an
interior NUL byte; the model records that outcome explicitly.
-/

/-- The external tokenization engine instance (`tokenizers::Tokenizer`),
modelled opaquely: `encodeIds text addSpecial` is `Tokenizer::encode`
returning the `u32` id sequence of `get_ids()`, and
`decodeText tokens skipSpecial` is `Tokenizer::decode` returning the
decoded text as its UTF-8 bytes. -/
structure Tokenizer where
  encodeIds : List Nat → Bool → Except Unit (List Nat)
  decodeText : List Nat → Bool → Except Unit (List Nat)

/-- Whether a continuation byte is in `0x80..=0xBF`. -/
def isCont (b : Nat) : Bool := decide (0x80 ≤ b ∧ b < 0xC0)

/-- Rust's `str::from_utf8` validity check (as used by `CStr::to_str`)
on a byte sequence: ASCII, two-, three- and four-byte sequences with the
standard restrictions (no overlongs, no surrogates, max U+10FFFF). -/
def isValidUtf8 : List Nat → Bool
  | [] => true
  | b :: rest =>
    if b < 0x80 then isValidUtf8 rest
    else if b < 0xC2 then false
    else if b < 0xE0 then
      match rest with
      | c1 :: rest2 => isCont c1 && isValidUtf8 rest2
      | [] => false
    else if b < 0xF0 then
      match rest with
      | c1 :: c2 :: rest3 =>
        (if b = 0xE0 then decide (0xA0 ≤ c1 ∧ c1 < 0xC0)
         else if b = 0xED then decide (0x80 ≤ c1 ∧ c1 < 0xA0)
         else isCont c1)
          && isCont c2 && isValidUtf8 rest3
      | _ => false
    else if b < 0xF5 then
      match rest with
      | c1 :: c2 :: c3 :: rest4 =>
        (if b = 0xF0 then decide (0x90 ≤ c1 ∧ c1 < 0xC0)
         else if b = 0xF4 then decide (0x80 ≤ c1 ∧ c1 < 0x90)
         else isCont c1)
          && isCont c2 && isCont c3 && isValidUtf8 rest4
      | _ => false
    else false

/-- Rust's `id as i32` on a `u32` value (`ffi.rs` line 42): reduce
modulo `2^32` and reinterpret as signed 32-bit. -/
def u32_to_i32 (id : Nat) : Int :=
  if id % 2 ^ 32 < 2 ^ 31 then ((id % 2 ^ 32 : Nat) : Int)
  else ((id % 2 ^ 32 : Nat) : Int) - 2 ^ 32

/-- Rust's `id as u32` on an `i32` value (`ffi.rs` line 58): reduce
modulo `2^32` into the unsigned range. -/
def i32_to_u32 (v : Int) : Nat := (v % (2 ^ 32 : Int)).toNat

/-- Rust's `len as i32` on a `usize` value (`ffi.rs` line 48): truncate
modulo `2^32` and reinterpret as signed 32-bit. -/
def usize_to_i32 (n : Nat) : Int := u32_to_i32 n

/-- `OnceCell::set` (`ffi.rs` line 19): publish the value only when the
cell is empty; a later set is a no-op (first writer wins). -/
def onceCellSet (cell : Option Tokenizer) (t : Tokenizer) : Option Tokenizer :=
  match cell with
  | none => some t
  | some old => some old

/-- `tokenizer_init` (`ffi.rs` lines 10–24).  The state is the content of
the `TOKENIZER` `OnceCell`; `fromFile` is the engine's
`Tokenizer::from_file`.  Returns the status and the new cell content:
`-1` when the path bytes are not valid UTF-8, `-2` when the engine load
fails, `0` on a successful load (published only if the cell was empty). -/
def tokenizer_init (fromFile : List Nat → Except Unit Tokenizer)
    (st : Option Tokenizer) (path : List Nat) : Int × Option Tokenizer :=
  if isValidUtf8 path then
    match fromFile path with
    | .ok tok => (0, onceCellSet st tok)
    | .error _ => (-2, st)
  else (-1, st)

/-- `tokenizer_encode` (`ffi.rs` lines 27–49).  `text` is the byte content
of the C string, `out_ids` the host buffer content, `max_len` the
capacity.  Returns the `i32` result and the buffer content after the
call: on success the first `len = min(|ids|, max_len)` converted ids are
copied over the start of the buffer (`ptr::copy_nonoverlapping`), the
rest of the buffer is untouched. -/
def tokenizer_encode (st : Option Tokenizer) (text : List Nat)
    (out_ids : List Int) (max_len : Nat) : Int × List Int :=
  if isValidUtf8 text then
    match st with
    | none => (-2, out_ids)
    | some tokenizer =>
      match tokenizer.encodeIds text true with
      | .error _ => (-3, out_ids)
      | .ok ids =>
        let ids_i32 := ids.map u32_to_i32
        let len := min ids_i32.length max_len
        (usize_to_i32 len, ids_i32.take len ++ out_ids.drop len)
  else (-1, out_ids)

/-- The token list handed to the engine by decode (`ffi.rs` line 58):
each `i32` element reinterpreted as `u32`. -/
def tokensOf (ids : List Int) : List Nat := ids.map i32_to_u32

/-- Outcome of `tokenizer_decode` as seen by the host: a null pointer, a
newly allocated NUL-terminated buffer with the given byte content, or a
panic of `CString::new(text).unwrap()` unwinding out of the `extern "C"`
function. -/
inductive DecodeResult where
  | nullPtr : DecodeResult
  | buffer : List Nat → DecodeResult
  | panicked : DecodeResult
deriving DecidableEq

/-- `tokenizer_decode` (`ffi.rs` lines 52–63): null when uninitialized,
null when the engine's decode fails, and on engine success
`CString::new(text).unwrap().into_raw()` — a fresh buffer when the text
has no interior NUL byte, a panic otherwise. -/
def tokenizer_decode (st : Option Tokenizer) (ids : List Int) : DecodeResult :=
  match st with
  | none => .nullPtr
  | some tokenizer =>
    match tokenizer.decodeText (tokensOf ids) true with
    | .ok text => if text.contains 0 then .panicked else .buffer text
    | .error _ => .nullPtr

/-- `tokenizer_cleanup` (`ffi.rs` lines 66–68): a no-op; the cell content
is unchanged. -/
def tokenizer_cleanup (st : Option Tokenizer) : Option Tokenizer := st

/-! ### Concrete engine instances used as witnesses -/

/-- An engine instance whose encode always yields the two ids `[3, 5]`. -/
def smallTok : Tokenizer where
  encodeIds := fun _ _ => .ok [3, 5]
  decodeText := fun _ _ => .error ()

/-- An engine instance whose encode and decode always fail. -/
def failTok : Tokenizer where
  encodeIds := fun _ _ => .error ()
  decodeText := fun _ _ => .error ()

/-- An engine instance whose decode always yields the text bytes
`"hi"` (no interior NUL). -/
def emptyTok : Tokenizer where
  encodeIds := fun _ _ => .error ()
  decodeText := fun _ _ => .ok [104, 105]

/-- An engine instance whose decode always yields the text bytes
`"a\x00b"` — a text with an interior NUL byte, which
`CString::new(text).unwrap()` rejects with a panic. -/
def nulTok : Tokenizer where
  encodeIds := fun _ _ => .error ()
  decodeText := fun _ _ => .ok [97, 0, 98]

/-- An engine instance whose encode yields `2 ^ 31` ids, exercising the
`len as i32` truncation in `tokenizer_encode`. -/
def bigTok : Tokenizer where
  encodeIds := fun _ _ => .ok (List.replicate (2 ^ 31) 0)
  decodeText := fun _ _ => .error ()

/-- A concrete `Tokenizer::from_file` model: loads `emptyTok` from the
path `"a"` and fails on every other path. -/
def fromFileW : List Nat → Except Unit Tokenizer :=
  fun p => if p = [97] then .ok emptyTok else .error ()

/-! ### Helper lemmas -/

/-- `len as i32` is the identity below `2 ^ 31`. -/
theorem usize_to_i32_small (n : Nat) (h : n < 2 ^ 31) : usize_to_i32 n = (n : Int) := by
  unfold usize_to_i32 u32_to_i32
  have h32 : n % 2 ^ 32 = n := Nat.mod_eq_of_lt (lt_trans h (by norm_num))
  rw [h32, if_pos h]

/-- Evaluation of `tokenizer_encode` on its success path. -/
theorem encode_ok_eval (t : Tokenizer) (text : List Nat) (buf : List Int)
    (cap : Nat) (ids : List Nat)
    (hv : isValidUtf8 text = true) (hok : t.encodeIds text true = .ok ids) :
    tokenizer_encode (some t) text buf cap
      = (usize_to_i32 (min ids.length cap),
         (ids.map u32_to_i32).take (min ids.length cap)
           ++ buf.drop (min ids.length cap)) := by
  simp only [tokenizer_encode, hv, if_true, hok, List.length_map]

/-- On a successful engine encode of `2 ^ 31` ids with capacity `2 ^ 31`,
the returned `len as i32` value is `-(2 ^ 31)`. -/
theorem encode_big_fst (text : List Nat) (hv : isValidUtf8 text = true) :
    (tokenizer_encode (some bigTok) text [] (2 ^ 31)).1 = -(2 ^ 31) := by
  have h : bigTok.encodeIds text true = .ok (List.replicate (2 ^ 31) 0) := rfl
  rw [encode_ok_eval bigTok text [] (2 ^ 31) _ hv h]
  simp only [List.length_replicate, min_self]
  unfold usize_to_i32 u32_to_i32
  norm_num

/-! ### Claims -/

/-- Claim C4: the singleton registry is write-once with first-writer-wins.
After a tokenizer `t` has been published, any sequence of further
`tokenizer_init` calls — with any paths, valid or not — leaves the cell
holding `t`, and encode and decode on the resulting state behave exactly
as on the state right after the first successful initialize. -/
theorem C4_first_writer_wins (fromFile : List Nat → Except Unit Tokenizer)
    (t : Tokenizer) (paths : List (List Nat)) (text : List Nat)
    (buf : List Int) (cap : Nat) (ids : List Int) :
    paths.foldl (fun st p => (tokenizer_init fromFile st p).2) (some t) = some t ∧
    tokenizer_encode
        (paths.foldl (fun st p => (tokenizer_init fromFile st p).2) (some t)) text buf cap
      = tokenizer_encode (some t) text buf cap ∧
    tokenizer_decode
        (paths.foldl (fun st p => (tokenizer_init fromFile st p).2) (some t)) ids
      = tokenizer_decode (some t) ids := by
  have hstep : ∀ p, (tokenizer_init fromFile (some t) p).2 = some t := by
    intro p
    unfold tokenizer_init
    split
    · cases h : fromFile p <;> simp [onceCellSet]
    · rfl
  have hfold : paths.foldl (fun st p => (tokenizer_init fromFile st p).2) (some t) = some t := by
    induction paths with
    | nil => rfl
    | cons p ps ih =>
      rw [List.foldl_cons, hstep p]
      exact ih
  exact ⟨hfold, by rw [hfold], by rw [hfold]⟩

/-- Claim C6: on text bytes that are not valid UTF-8, `tokenizer_encode`
returns `-1` and leaves the host buffer unchanged, for every registry
state and capacity. -/
theorem C6_invalid_text_no_write (st : Option Tokenizer) (text : List Nat)
    (buf : List Int) (cap : Nat) (h : isValidUtf8 text = false) :
    tokenizer_encode st text buf cap = (-1, buf) := by
  simp [tokenizer_encode, h]

/-- Witness for C6 at the invalid byte `0xFF`. -/
theorem C6_witness :
    isValidUtf8 [255] = false ∧
    tokenizer_encode (some smallTok) [255] [5, 6] 2 = (-1, [5, 6]) :=
  ⟨by decide, C6_invalid_text_no_write (some smallTok) [255] [5, 6] 2 (by decide)⟩

/-- Claim C7: decode reinterprets each signed 32-bit element as unsigned —
a non-negative `v` maps to `v` and a negative `v` to `v + 2 ^ 32` — and
the wrapped values are passed through to the engine unchanged: the
result of `tokenizer_decode` depends on the engine only through its
value at the wrapped token list. -/
theorem C7_decode_cast (ids : List Int)
    (hr : ∀ v ∈ ids, -2 ^ 31 ≤ v ∧ v < 2 ^ 31) :
    tokensOf ids
      = ids.map (fun v => if 0 ≤ v then v.toNat else (v + 2 ^ 32).toNat) ∧
    ∀ t₁ t₂ : Tokenizer,
      t₁.decodeText (tokensOf ids) true = t₂.decodeText (tokensOf ids) true →
      tokenizer_decode (some t₁) ids = tokenizer_decode (some t₂) ids := by
  constructor
  · unfold tokensOf
    apply List.map_congr_left
    intro v hv
    have h := hr v hv
    unfold i32_to_u32
    split <;> omega
  · intro t₁ t₂ h
    simp only [tokenizer_decode]
    rw [h]

/-- Witness for C7 at `[-1, 5]`: `-1` wraps to `4294967295`. -/
theorem C7_witness : tokensOf [(-1 : Int), 5] = [4294967295, 5] := by
  have h := C7_decode_cast [(-1 : Int), 5] (by decide)
  rw [h.1]
  decide

/-- Claim C8: with an initialized tokenizer whose engine decodes the
empty token list successfully into NUL-free text, `tokenizer_decode` on
a length-0 id array returns that (possibly empty) text buffer — never a
null pointer. -/
theorem C8_decode_empty (st : Option Tokenizer) (t : Tokenizer) (text : List Nat)
    (hst : st = some t) (hok : t.decodeText (tokensOf []) true = .ok text)
    (hnul : text.contains 0 = false) :
    tokenizer_decode st [] = .buffer text ∧ DecodeResult.buffer text ≠ .nullPtr := by
  subst hst
  constructor
  · have hmem : (0 : Nat) ∉ text := by simpa using hnul
    simp only [tokenizer_decode]
    rw [hok]
    simp [hmem]
  · simp

/-- Witness for C8 with a concrete engine decoding `[]` to `"hi"`. -/
theorem C8_witness : tokenizer_decode (some emptyTok) [] = .buffer [104, 105] :=
  (C8_decode_empty (some emptyTok) emptyTok [104, 105] rfl rfl (by decide)).1

/-- Claim C9: encode's `u32 → i32` cast and decode's `i32 → u32` cast are
mutually inverse on the 32-bit range: every id below `2 ^ 32` survives
the round trip exactly (also at or above `2 ^ 31`), and every signed
value in `[-2 ^ 31, 2 ^ 31)` survives the reverse round trip. -/
theorem C9_cast_roundtrip :
    (∀ id : Nat, id < 2 ^ 32 → i32_to_u32 (u32_to_i32 id) = id) ∧
    (∀ v : Int, -2 ^ 31 ≤ v → v < 2 ^ 31 → u32_to_i32 (i32_to_u32 v) = v) := by
  constructor
  · intro id h
    unfold u32_to_i32 i32_to_u32
    have h32 : id % 2 ^ 32 = id := Nat.mod_eq_of_lt h
    rw [h32]
    split <;> omega
  · intro v h1 h2
    unfold u32_to_i32 i32_to_u32
    split <;> omega

/-- Witness for C9 at the id `2 ^ 31 + 7`, above the signed boundary. -/
theorem C9_witness :
    i32_to_u32 (u32_to_i32 (2 ^ 31 + 7)) = 2 ^ 31 + 7 ∧
    u32_to_i32 (i32_to_u32 (-5)) = -5 :=
  ⟨C9_cast_roundtrip.1 (2 ^ 31 + 7) (by norm_num),
   C9_cast_roundtrip.2 (-5) (by norm_num) (by norm_num)⟩

/-- Claim C10: after a tokenizer is already published, a later
`tokenizer_init` call leaves the registry unchanged, yet still performs
a fresh engine load and returns a status determined solely by its own
arguments — the same status the call would return on an empty registry:
`-1` on invalid path bytes, `0` when the engine load succeeds, `-2` when
it fails. -/
theorem C10_reinit_status (fromFile : List Nat → Except Unit Tokenizer)
    (t : Tokenizer) (path : List Nat) :
    (tokenizer_init fromFile (some t) path).2 = some t ∧
    (tokenizer_init fromFile (some t) path).1
      = (tokenizer_init fromFile none path).1 ∧
    (isValidUtf8 path = false → (tokenizer_init fromFile (some t) path).1 = -1) ∧
    (∀ tok, isValidUtf8 path = true → fromFile path = .ok tok →
      (tokenizer_init fromFile (some t) path).1 = 0) ∧
    (∀ e : Unit, isValidUtf8 path = true → fromFile path = .error e →
      (tokenizer_init fromFile (some t) path).1 = -2) := by
  refine ⟨?_, ?_, ?_, ?_, ?_⟩
  · unfold tokenizer_init
    split
    · cases h : fromFile path <;> simp [onceCellSet]
    · rfl
  · unfold tokenizer_init
    split
    · cases h : fromFile path <;> simp
    · rfl
  · intro h
    simp [tokenizer_init, h]
  · intro tok hv hok
    simp [tokenizer_init, hv, hok]
  · intro e hv herr
    simp [tokenizer_init, hv, herr]

/-- Witness for C10: with the registry holding `emptyTok`, a re-init on a
failing path returns `-2` and keeps the registry, a re-init on the
loadable path returns `0`, and a re-init on invalid bytes returns `-1`. -/
theorem C10_witness :
    (tokenizer_init fromFileW (some emptyTok) [98]).2 = some emptyTok ∧
    (tokenizer_init fromFileW (some emptyTok) [98]).1 = -2 ∧
    (tokenizer_init fromFileW (some emptyTok) [97]).1 = 0 ∧
    (tokenizer_init fromFileW (some emptyTok) [255]).1 = -1 :=
  ⟨(C10_reinit_status fromFileW emptyTok [98]).1,
   (C10_reinit_status fromFileW emptyTok [98]).2.2.2.2 () (by decide) rfl,
   (C10_reinit_status fromFileW emptyTok [97]).2.2.2.1 emptyTok (by decide) rfl,
   (C10_reinit_status fromFileW emptyTok [255]).2.2.1 (by decide)⟩

/-- Claim C1 counterexample: the claim says encode returns
`n = min(resultLength, capacity)`, but the source returns `len as i32`.
With an engine producing `2 ^ 31` ids and capacity `2 ^ 31`, the call
returns `-(2 ^ 31)` while `min(resultLength, capacity) = 2 ^ 31`. -/
theorem C1_counterexample :
    bigTok.encodeIds [97] true = .ok (List.replicate (2 ^ 31) 0) ∧
    (tokenizer_encode (some bigTok) [97] [] (2 ^ 31)).1 = -(2 ^ 31) ∧
    min (List.replicate (2 ^ 31) (0 : Nat)).length (2 ^ 31) = 2 ^ 31 ∧
    (-(2 ^ 31) : Int) ≠ ((2 ^ 31 : Nat) : Int) := by
  refine ⟨rfl, encode_big_fst [97] (by decide), ?_, by norm_num⟩
  rw [List.length_replicate]
  exact min_self _

/-- Claim C1 (amended): for valid text, an initialized tokenizer and a
successful engine encode producing `ids`, with `n = min(|ids|, capacity)`:
exactly the first `n` converted ids are written left-to-right over the
start of the buffer and the rest of the buffer is unchanged; the return
value is `n` truncated to `i32` — equal to `n` whenever `n < 2 ^ 31`;
capacity `0` returns `0` with the buffer untouched; and capacity
`≥ |ids|` writes the full untruncated sequence, returning the exact
count when it is below `2 ^ 31`. -/
theorem C1_encode_truncation (st : Option Tokenizer) (t : Tokenizer)
    (text : List Nat) (buf : List Int) (cap : Nat) (ids : List Nat)
    (hv : isValidUtf8 text = true) (hst : st = some t)
    (hok : t.encodeIds text true = .ok ids) :
    (tokenizer_encode st text buf cap).2
      = (ids.map u32_to_i32).take (min ids.length cap)
          ++ buf.drop (min ids.length cap) ∧
    (tokenizer_encode st text buf cap).1 = usize_to_i32 (min ids.length cap) ∧
    (min ids.length cap < 2 ^ 31 →
      (tokenizer_encode st text buf cap).1 = ((min ids.length cap : Nat) : Int)) ∧
    (cap = 0 → tokenizer_encode st text buf cap = (0, buf)) ∧
    (ids.length ≤ cap →
      (tokenizer_encode st text buf cap).2
          = ids.map u32_to_i32 ++ buf.drop ids.length ∧
      (ids.length < 2 ^ 31 →
        (tokenizer_encode st text buf cap).1 = (ids.length : Int))) := by
  subst hst
  have heval := encode_ok_eval t text buf cap ids hv hok
  refine ⟨by rw [heval], by rw [heval], ?_, ?_, ?_⟩
  · intro hn
    rw [heval]
    exact usize_to_i32_small _ hn
  · intro hcap
    subst hcap
    rw [heval]
    simp [usize_to_i32_small 0 (by norm_num)]
  · intro hle
    have hmin : min ids.length cap = ids.length := min_eq_left hle
    constructor
    · rw [heval, hmin]
      rw [List.take_of_length_le (le_of_eq (List.length_map ids u32_to_i32))]
    · intro hsmall
      rw [heval, hmin]
      exact usize_to_i32_small _ hsmall

/-- Witness for C1: a two-id engine result with capacity 2 over a
three-slot buffer fills the first two slots and returns 2. -/
theorem C1_witness :
    (tokenizer_encode (some smallTok) [97] [9, 9, 9] 2).2 = [3, 5, 9] ∧
    (tokenizer_encode (some smallTok) [97] [9, 9, 9] 2).1 = 2 := by
  have h := C1_encode_truncation (some smallTok) smallTok [97] [9, 9, 9] 2 [3, 5]
    (by decide) rfl rfl
  constructor
  · rw [h.1]
    decide
  · rw [h.2.2.1 (by decide)]
    decide

/-- Claim C2 counterexample: the claim says every non-error call returns
a non-negative fill count, but with an engine producing `2 ^ 31` ids and
capacity `2 ^ 31` the success path returns `-(2 ^ 31)` — negative, yet
none of the error codes `-1`, `-2`, `-3`. -/
theorem C2_counterexample :
    (tokenizer_encode (some bigTok) [98] [] (2 ^ 31)).1 < 0 ∧
    (tokenizer_encode (some bigTok) [98] [] (2 ^ 31)).1 ≠ -1 ∧
    (tokenizer_encode (some bigTok) [98] [] (2 ^ 31)).1 ≠ -2 ∧
    (tokenizer_encode (some bigTok) [98] [] (2 ^ 31)).1 ≠ -3 := by
  have h := encode_big_fst [98] (by decide)
  rw [h]
  norm_num

/-- Claim C2 (amended): encode returns `-1` on invalid text bytes
regardless of the registry state (so invalid text is reported even when
uninitialized), else `-2` when uninitialized, else `-3` when the engine's
encode fails, and otherwise `min(|ids|, capacity)` truncated to `i32`
(the non-negative fill count whenever that min is below `2 ^ 31`). -/
theorem C2_encode_status_order (st : Option Tokenizer) (text : List Nat)
    (buf : List Int) (cap : Nat) :
    (isValidUtf8 text = false → (tokenizer_encode st text buf cap).1 = -1) ∧
    (isValidUtf8 text = true → st = none →
      (tokenizer_encode st text buf cap).1 = -2) ∧
    (∀ t e, isValidUtf8 text = true → st = some t →
      t.encodeIds text true = .error e →
      (tokenizer_encode st text buf cap).1 = -3) ∧
    (∀ t ids, isValidUtf8 text = true → st = some t →
      t.encodeIds text true = .ok ids →
      (tokenizer_encode st text buf cap).1
        = usize_to_i32 (min ids.length cap)) := by
  refine ⟨?_, ?_, ?_, ?_⟩
  · intro h
    simp [tokenizer_encode, h]
  · intro hv hst
    subst hst
    simp [tokenizer_encode, hv]
  · intro t e hv hst herr
    subst hst
    simp [tokenizer_encode, hv, herr]
  · intro t ids hv hst hok
    subst hst
    rw [encode_ok_eval t text buf cap ids hv hok]

/-- Witness for C2: each of the four outcomes at a concrete input. -/
theorem C2_witness :
    (tokenizer_encode none [255] [] 3).1 = -1 ∧
    (tokenizer_encode none [97] [] 3).1 = -2 ∧
    (tokenizer_encode (some failTok) [97] [] 3).1 = -3 ∧
    (tokenizer_encode (some smallTok) [97] [] 3).1
      = usize_to_i32 (min ([3, 5] : List Nat).length 3) :=
  ⟨(C2_encode_status_order none [255] [] 3).1 (by decide),
   (C2_encode_status_order none [97] [] 3).2.1 (by decide) rfl,
   (C2_encode_status_order (some failTok) [97] [] 3).2.2.1 failTok () (by decide) rfl rfl,
   (C2_encode_status_order (some smallTok) [97] [] 3).2.2.2 smallTok [3, 5] (by decide) rfl rfl⟩

/-- Claim C3 (code bug): the claim says no boundary operation ever
panics, and that decode's success path always returns a buffer for every
text the engine can produce.  But with an engine whose decode succeeds
with the text bytes `"a\x00b"` (interior NUL), the source's
`CString::new(text).unwrap()` panics and unwinds out of the
`extern "C"` function instead of returning a sentinel. -/
theorem C3_decode_panics_on_interior_nul :
    nulTok.decodeText (tokensOf [0]) true = .ok [97, 0, 98] ∧
    tokenizer_decode (some nulTok) [0] = .panicked ∧
    DecodeResult.panicked ≠ .nullPtr ∧
    DecodeResult.panicked ≠ .buffer [97, 0, 98] := by
  refine ⟨rfl, rfl, by simp, by simp⟩

/-- Claim C5 counterexample: the claim says that on engine success decode
returns a buffer holding the decoded text; with an engine success whose
text contains an interior NUL byte, the call panics instead. -/
theorem C5_counterexample :
    nulTok.decodeText (tokensOf [1]) true = .ok [97, 0, 98] ∧
    tokenizer_decode (some nulTok) [1] = .panicked ∧
    tokenizer_decode (some nulTok) [1] ≠ .buffer [97, 0, 98] ∧
    tokenizer_decode (some nulTok) [1] ≠ .nullPtr := by
  refine ⟨rfl, rfl, by decide, by decide⟩

/-- Claim C5 (amended): decode returns null before any successful
initialize; returns null when the engine's decode fails; and on engine
success whose decoded text contains no interior NUL byte it returns a
freshly allocated NUL-terminated buffer holding that text. -/
theorem C5_decode_null_and_buffer (st : Option Tokenizer) (ids : List Int) :
    (st = none → tokenizer_decode st ids = .nullPtr) ∧
    (∀ t e, st = some t → t.decodeText (tokensOf ids) true = .error e →
      tokenizer_decode st ids = .nullPtr) ∧
    (∀ t text, st = some t → t.decodeText (tokensOf ids) true = .ok text →
      text.contains 0 = false → tokenizer_decode st ids = .buffer text) := by
  refine ⟨?_, ?_, ?_⟩
  · intro hst
    subst hst
    rfl
  · intro t e hst herr
    subst hst
    simp only [tokenizer_decode]
    rw [herr]
  · intro t text hst hok hnul
    subst hst
    have hmem : (0 : Nat) ∉ text := by simpa using hnul
    simp only [tokenizer_decode]
    rw [hok]
    simp [hmem]

/-- Witness for C5: the three outcomes at concrete inputs. -/
theorem C5_witness :
    tokenizer_decode none [1] = .nullPtr ∧
    tokenizer_decode (some failTok) [1] = .nullPtr ∧
    tokenizer_decode (some emptyTok) [1] = .buffer [104, 105] :=
  ⟨(C5_decode_null_and_buffer none [1]).1 rfl,
   (C5_decode_null_and_buffer (some failTok) [1]).2.1 failTok () rfl rfl,
   (C5_decode_null_and_buffer (some emptyTok) [1]).2.2 emptyTok [104, 105] rfl rfl (by decide)⟩
